import Mathlib

/-!
Shallow embedding of the SOFA-import pipeline
(`examples/Exp3_Import_SOFA.ipynb` of `sound_field_analysis-py`).

The notebook opens a SOFA/netCDF container, extracts the two receiver
impulse-response matrices with `np.squeeze(sofa_file['Data.IR'][:,r,:])`,
unpacks the source positions with `np.squeeze(np.hsplit(..., 3))`, reads the
sampling rate, closes the file, converts degrees to radians/colatitude, builds
two `io.ArraySignal` values and saves them as `<name>_L.npy` / `<name>_R.npy`.

Numpy arrays are modelled by the nested inductive `NDArray`; numeric entries
live in an arbitrary field `α` (instantiated with `ℝ` in the theorems), so the
embedding stays computable while the statements use exact real arithmetic.
-/

set_option autoImplicit false

namespace SofaImport

universe u

/-- A numpy-style multidimensional array: either a scalar or a list of
subarrays (one per index of the leading axis). -/
inductive NDArray (α : Type u) : Type u where
  | scalar : α → NDArray α
  | arr : List (NDArray α) → NDArray α

variable {α β : Type u}

/-- Errors raised by the Python runtime in the notebook: indexing outside an
axis (`IndexError`), an illegal split or unpack (`ValueError`). The notebook
defines no `SchemaError` and performs no schema validation. -/
inductive PyErr : Type where
  | indexError : PyErr
  | valueError : PyErr
deriving DecidableEq

mutual

/-- `hasShapeB ds a` checks that `a` is a rectangular array of shape `ds`:
`[]` means a scalar, `d :: ds` means a list of `d` subarrays of shape `ds`. -/
def hasShapeB : List ℕ → NDArray α → Bool
  | [], NDArray.scalar _ => true
  | d :: ds, NDArray.arr xs => xs.length == d && hasShapeAll ds xs
  | _, _ => false

/-- All members of `xs` have shape `ds`. -/
def hasShapeAll : List ℕ → List (NDArray α) → Bool
  | _, [] => true
  | ds, x :: xs => hasShapeB ds x && hasShapeAll ds xs

end

/-- The shape of an array read off from its leading elements (the shape numpy
would report for a rectangular array). -/
def shapeOf : NDArray α → List ℕ
  | NDArray.scalar _ => []
  | NDArray.arr [] => [0]
  | NDArray.arr (x :: xs) => (xs.length + 1) :: shapeOf x

mutual

/-- `np.squeeze`: remove every axis of length 1. -/
def squeeze : NDArray α → NDArray α
  | NDArray.scalar x => NDArray.scalar x
  | NDArray.arr [a] => squeeze a
  | NDArray.arr xs => NDArray.arr (squeezeList xs)

/-- `squeeze` mapped over a list of subarrays. -/
def squeezeList : List (NDArray α) → List (NDArray α)
  | [] => []
  | x :: xs => squeeze x :: squeezeList xs

end

mutual

/-- Elementwise application of a scalar function (numpy broadcasting of an
arithmetic expression over an array). -/
def scalarMap (f : α → β) : NDArray α → NDArray β
  | NDArray.scalar x => NDArray.scalar (f x)
  | NDArray.arr xs => NDArray.arr (scalarMapList f xs)

/-- `scalarMap` mapped over a list of subarrays. -/
def scalarMapList (f : α → β) : List (NDArray α) → List (NDArray β)
  | [] => []
  | x :: xs => scalarMap f x :: scalarMapList f xs

end

/-- For each measurement row (an array over the second axis), pick index `r`
of that axis; `IndexError` when the axis is too short.  This is the row-wise
part of `ir[:, r, :]`. -/
def sliceCols (r : ℕ) : List (NDArray α) → Except PyErr (List (NDArray α))
  | [] => Except.ok []
  | NDArray.arr rs :: ms =>
      match rs[r]? with
      | some v => Except.map (fun vs => v :: vs) (sliceCols r ms)
      | none => Except.error PyErr.indexError
  | NDArray.scalar _ :: _ => Except.error PyErr.indexError

/-- `a[:, r, :]` — fix index `r` on the second axis of a 3-axis array. -/
def sliceAxis1 (a : NDArray α) (r : ℕ) : Except PyErr (NDArray α) :=
  match a with
  | NDArray.arr ms => Except.map NDArray.arr (sliceCols r ms)
  | NDArray.scalar _ => Except.error PyErr.indexError

/-- `np.squeeze(sofa_file['Data.IR'][:, r, :])` — the notebook's extraction of
one receiver's impulse-response matrix. -/
def extractReceiverMatrix (ir : NDArray α) (r : ℕ) : Except PyErr (NDArray α) :=
  Except.map squeeze (sliceAxis1 ir r)

/-- Take columns `[lo, lo+len)` of every row of a 2-axis array. -/
def takeCols (lo len : ℕ) : List (NDArray α) → Except PyErr (List (NDArray α))
  | [] => Except.ok []
  | NDArray.arr cs :: ms =>
      Except.map (fun vs => NDArray.arr ((cs.drop lo).take len) :: vs)
        (takeCols lo len ms)
  | NDArray.scalar _ :: _ => Except.error PyErr.valueError

/-- `np.hsplit(a, 3)`: split the second axis into three equal parts;
`ValueError` when the column count is not divisible by 3 (numpy: "array split
does not result in an equal division"). -/
def hsplit3 (a : NDArray α) : Except PyErr (NDArray α × NDArray α × NDArray α) :=
  match a with
  | NDArray.arr ms =>
      let C : ℕ :=
        match ms with
        | NDArray.arr cs :: _ => cs.length
        | _ => 0
      if C % 3 = 0 then
        let k := C / 3
        match takeCols 0 k ms, takeCols k k ms, takeCols (2 * k) k ms with
        | Except.ok a0, Except.ok a1, Except.ok a2 =>
            Except.ok (NDArray.arr a0, NDArray.arr a1, NDArray.arr a2)
        | _, _, _ => Except.error PyErr.valueError
      else Except.error PyErr.valueError
  | NDArray.scalar _ => Except.error PyErr.valueError

/-- Tuple-unpacking `x, y, z = a` of an array along its leading axis:
succeeds exactly when that axis has length 3. -/
def unpack3 : NDArray α → Except PyErr (NDArray α × NDArray α × NDArray α)
  | NDArray.arr [a, b, c] => Except.ok (a, b, c)
  | _ => Except.error PyErr.valueError

/-- `Az, El, R = np.squeeze(np.hsplit(sofa_file['SourcePosition'][:], 3))` —
split the position triplets, stack the three parts, squeeze, unpack. -/
def splitPositions (sp : NDArray α) :
    Except PyErr (NDArray α × NDArray α × NDArray α) :=
  match hsplit3 sp with
  | Except.error e => Except.error e
  | Except.ok (s0, s1, s2) => unpack3 (squeeze (NDArray.arr [s0, s1, s2]))

/-- `a[0]` on the leading axis — used for
`fs = sofa_file['Data.SamplingRate'][:][0]`. -/
def getIdx0 : NDArray α → Except PyErr (NDArray α)
  | NDArray.arr (x :: _) => Except.ok x
  | _ => Except.error PyErr.indexError

/-- Modelled from the spec: `io.TimeSignal` of `sound_field_analysis` (not
under `src/`) — "owns an Impulse Response Matrix and a Sampling Rate";
`io.TimeSignal(HRIRs_l, fs)` stores the matrix and the rate. -/
structure TimeSignal (α : Type u) : Type u where
  signal : NDArray α
  fs : NDArray α

/-- Modelled from the spec: `io.SphericalGrid` (not under `src/`) — "owns
three ordered sequences — azimuth, colatitude, radius";
`io.SphericalGrid(azimuth, colatitude, R)` stores the three arrays. -/
structure SphericalGrid (α : Type u) : Type u where
  azimuth : NDArray α
  colatitude : NDArray α
  radius : NDArray α

/-- Modelled from the spec: `io.ArraySignal` (not under `src/`) — "owns one
Time Signal and references one Spherical Grid". -/
structure ArraySignal (α : Type u) : Type u where
  signal : TimeSignal α
  grid : SphericalGrid α

/-- The SOFA container variables the notebook reads (dimension convention
`ListenerPosition(I,C)`, `ReceiverPosition(R,C,I)`, `SourcePosition(M,C)`,
`EmitterPosition(E,C,I)`, `Data.IR(M,R,N)`, `Data.SamplingRate(I)`). -/
structure Container (α : Type u) : Type u where
  listenerPosition : NDArray α
  receiverPosition : NDArray α
  sourcePosition : NDArray α
  emitterPosition : NDArray α
  dataIR : NDArray α
  samplingRate : NDArray α

section Pipeline

variable [Field α]

/-- `azimuth = Az / 180 * np.pi` at scalar level; `piv` stands for `np.pi`. -/
def deg2rad (piv az : α) : α := az / 180 * piv

/-- `colatitude = np.pi / 2 - El / 180 * np.pi` at scalar level. -/
def elevationToColatitude (piv el : α) : α := piv / 2 - el / 180 * piv

/-- The Coordinate Converter over sequences: maps the degree-to-radian
conversion over azimuths, the elevation-to-colatitude conversion over
elevations, and passes the radii through. -/
def convertSourcePositions (piv : α) (azDeg elDeg rMeters : List α) :
    List α × List α × List α :=
  (azDeg.map (deg2rad piv), elDeg.map (elevationToColatitude piv), rMeters)

/-- Cell 6 of the notebook: extract both receivers' impulse responses, unpack
the source positions and read the sampling rate, in source order with Python's
fail-fast error propagation. -/
def extractAll (c : Container α) :
    Except PyErr
      (NDArray α × NDArray α × (NDArray α × NDArray α × NDArray α) × NDArray α) :=
  match extractReceiverMatrix c.dataIR 0 with
  | Except.error e => Except.error e
  | Except.ok hrirsL =>
      match extractReceiverMatrix c.dataIR 1 with
      | Except.error e => Except.error e
      | Except.ok hrirsR =>
          match splitPositions c.sourcePosition with
          | Except.error e => Except.error e
          | Except.ok aer =>
              match getIdx0 c.samplingRate with
              | Except.error e => Except.error e
              | Except.ok fs => Except.ok (hrirsL, hrirsR, aer, fs)

/-- One `io.SphericalGrid(...)` constructor call, instrumented with a counter
so a run records how many grids it builds. -/
def mkSphericalGridCounted (az colat r : NDArray α) (n : ℕ) :
    SphericalGrid α × ℕ :=
  (⟨az, colat, r⟩, n + 1)

/-- Observable trace of one notebook run: the saved artifacts (or the first
error raised), whether `sofa_file.close()` was reached, and how many
`io.SphericalGrid` constructions happened. -/
structure RunTrace (α : Type u) : Type u where
  result : Except PyErr (List (String × ArraySignal α))
  closed : Bool
  gridConstructions : ℕ

/-- The whole notebook pipeline (cells 6, 7, 9, 10): extraction, then
`sofa_file.close()`, then conversion to radians/colatitude, then assembly of
the two `ArraySignal`s (each with its own `io.SphericalGrid(...)` call), then
`np.save(filename + '_L', ...)` and `np.save(filename + '_R', ...)`.
If any extraction step raises, the close in cell 7 is never reached. -/
def runPipeline (piv : α) (filename : String) (c : Container α) : RunTrace α :=
  match extractAll c with
  | Except.error e => ⟨Except.error e, false, 0⟩
  | Except.ok (hrirsL, hrirsR, (az, el, r), fs) =>
      let azimuth := scalarMap (deg2rad piv) az
      let colatitude := scalarMap (elevationToColatitude piv) el
      let (grid1, n1) := mkSphericalGridCounted azimuth colatitude r 0
      let hrirFullL : ArraySignal α := ⟨⟨hrirsL, fs⟩, grid1⟩
      let (grid2, n2) := mkSphericalGridCounted azimuth colatitude r n1
      let hrirFullR : ArraySignal α := ⟨⟨hrirsR, fs⟩, grid2⟩
      ⟨Except.ok [(filename ++ "_L", hrirFullL), (filename ++ "_R", hrirFullR)],
        true, n2⟩

end Pipeline

section Persistence

mutual

/-- Flatten an array into its list of entries in row-major order. -/
def flatten : NDArray α → List α
  | NDArray.scalar x => [x]
  | NDArray.arr xs => flattenList xs

/-- `flatten` concatenated over a list of subarrays. -/
def flattenList : List (NDArray α) → List α
  | [] => []
  | x :: xs => flatten x ++ flattenList xs

end

/-- Number of entries of an array of shape `ds`. -/
def prodShape (ds : List ℕ) : ℕ := ds.foldr (fun d n => d * n) 1

mutual

/-- Rebuild the array of shape `ds` from a row-major entry list; `none` when
the data does not match the shape. -/
def unflatten : List ℕ → List α → Option (NDArray α)
  | [], [x] => some (NDArray.scalar x)
  | [], _ => none
  | d :: ds, xs => Option.map NDArray.arr (unflattenMany d ds xs)
termination_by ds _ => (ds.length, 0, 0)

/-- Rebuild `d` consecutive subarrays of shape `ds`, consuming the entry list
exactly. -/
def unflattenMany : ℕ → List ℕ → List α → Option (List (NDArray α))
  | 0, _, xs => if xs.isEmpty then some [] else none
  | d + 1, ds, xs =>
      match unflatten ds (xs.take (prodShape ds)),
          unflattenMany d ds (xs.drop (prodShape ds)) with
      | some a, some as => some (a :: as)
      | _, _ => none
termination_by d ds _ => (ds.length, 1, d)

end

/-- The array is rectangular: it matches the shape read off its leading
elements (true of every numpy array). -/
def isRect (a : NDArray α) : Bool := hasShapeB (shapeOf a) a

/-- One serialized array: its shape header and row-major data, as in the
`.npy` format. -/
structure SavedArray (α : Type u) : Type u where
  shape : List ℕ
  data : List α

/-- Serialize one array. -/
def saveND (a : NDArray α) : SavedArray α := ⟨shapeOf a, flatten a⟩

/-- Deserialize one array. -/
def loadND (f : SavedArray α) : Option (NDArray α) := unflatten f.shape f.data

/-- Modelled from the spec: the Persistence Writer (`np.save` /
`np.load`, not under `src/`) — "serialize the full object graph (matrix,
sampling rate, three coordinate sequences) losslessly to one file per
channel". One file holding the five serialized components. -/
structure SavedArraySignal (α : Type u) : Type u where
  signal : SavedArray α
  fs : SavedArray α
  azimuth : SavedArray α
  colatitude : SavedArray α
  radius : SavedArray α

/-- Modelled from the spec: serialization of one `ArraySignal` to one file. -/
def serializeArraySignal (s : ArraySignal α) : SavedArraySignal α :=
  ⟨saveND s.signal.signal, saveND s.signal.fs,
    saveND s.grid.azimuth, saveND s.grid.colatitude, saveND s.grid.radius⟩

/-- Modelled from the spec: deserialization of one file back to an
`ArraySignal`. -/
def deserializeArraySignal (f : SavedArraySignal α) : Option (ArraySignal α) := do
  let m ← loadND f.signal
  let fs ← loadND f.fs
  let az ← loadND f.azimuth
  let colat ← loadND f.colatitude
  let r ← loadND f.radius
  pure ⟨⟨m, fs⟩, ⟨az, colat, r⟩⟩

end Persistence

section SampleData

/-- Shorthand for a real scalar entry. -/
def rs (x : ℝ) : NDArray ℝ := NDArray.scalar x

/-- A `Data.IR` variable of shape `(M, R, N) = (2, 2, 2)`. -/
def sampleIR2 : NDArray ℝ :=
  NDArray.arr
    [NDArray.arr [NDArray.arr [rs 1, rs 2], NDArray.arr [rs 3, rs 4]],
      NDArray.arr [NDArray.arr [rs 5, rs 6], NDArray.arr [rs 7, rs 8]]]

/-- A `Data.IR` variable of shape `(M, R, N) = (2, 1, 2)` — one receiver. -/
def sampleIR1 : NDArray ℝ :=
  NDArray.arr
    [NDArray.arr [NDArray.arr [rs 1, rs 2]],
      NDArray.arr [NDArray.arr [rs 3, rs 4]]]

/-- A `Data.IR` variable of shape `(M, R, N) = (2, 3, 2)` — three receivers. -/
def sampleIR3 : NDArray ℝ :=
  NDArray.arr
    [NDArray.arr [NDArray.arr [rs 1, rs 2], NDArray.arr [rs 3, rs 4],
        NDArray.arr [rs 5, rs 6]],
      NDArray.arr [NDArray.arr [rs 7, rs 8], NDArray.arr [rs 9, rs 10],
        NDArray.arr [rs 11, rs 12]]]

/-- A `Data.IR` variable of shape `(M, R, N) = (1, 2, 2)` — one measurement. -/
def sampleIRM1 : NDArray ℝ :=
  NDArray.arr
    [NDArray.arr [NDArray.arr [rs 1, rs 2], NDArray.arr [rs 3, rs 4]]]

/-- A `SourcePosition` variable of shape `(M, C) = (2, 3)`. -/
def sampleSP3 : NDArray ℝ :=
  NDArray.arr [NDArray.arr [rs 10, rs 20, rs 1],
    NDArray.arr [rs 30, rs 40, rs 2]]

/-- A `SourcePosition` variable of shape `(M, C) = (2, 4)` — component count
not divisible by 3. -/
def sampleSP4 : NDArray ℝ :=
  NDArray.arr [NDArray.arr [rs 10, rs 20, rs 1, rs 0],
    NDArray.arr [rs 30, rs 40, rs 2, rs 0]]

/-- A `ListenerPosition` variable with a single listener, `(I, C) = (1, 3)`. -/
def sampleLP1 : NDArray ℝ := NDArray.arr [NDArray.arr [rs 0, rs 0, rs 0]]

/-- A `ListenerPosition` variable with two listeners, `(I, C) = (2, 3)`. -/
def sampleLP2 : NDArray ℝ :=
  NDArray.arr [NDArray.arr [rs 0, rs 0, rs 0], NDArray.arr [rs 1, rs 0, rs 0]]

/-- An `EmitterPosition` variable, `(E, C, I) = (1, 3, 1)`. -/
def sampleEP1 : NDArray ℝ :=
  NDArray.arr [NDArray.arr [NDArray.arr [rs 0], NDArray.arr [rs 0],
    NDArray.arr [rs 0]]]

/-- A `ReceiverPosition` variable, `(R, C, I) = (2, 3, 1)`. -/
def sampleRP2 : NDArray ℝ :=
  NDArray.arr
    [NDArray.arr [NDArray.arr [rs 0], NDArray.arr [rs 0.09], NDArray.arr [rs 0]],
      NDArray.arr [NDArray.arr [rs 0], NDArray.arr [rs (-0.09)],
        NDArray.arr [rs 0]]]

/-- A well-formed container, `I = 1, C = 3, R = 2, E = 1, N = 2, M = 2`. -/
def sampleGood : Container ℝ :=
  ⟨sampleLP1, sampleRP2, sampleSP3, sampleEP1, sampleIR2,
    NDArray.arr [rs 48000]⟩

/-- Like `sampleGood` but with two listeners (`ListenerCount = 2`, and a
per-listener sampling rate of length 2). -/
def sampleListener2 : Container ℝ :=
  ⟨sampleLP2, sampleRP2, sampleSP3, sampleEP1, sampleIR2,
    NDArray.arr [rs 48000, rs 44100]⟩

/-- Like `sampleGood` but with a single receiver (`ReceiverCount = 1`). -/
def sampleReceiver1 : Container ℝ :=
  ⟨sampleLP1, sampleRP2, sampleSP3, sampleEP1, sampleIR1,
    NDArray.arr [rs 48000]⟩

/-- Like `sampleGood` but with three receivers (`ReceiverCount = 3`). -/
def sampleReceiver3 : Container ℝ :=
  ⟨sampleLP1, sampleRP2, sampleSP3, sampleEP1, sampleIR3,
    NDArray.arr [rs 48000]⟩

/-- Like `sampleGood` but with `ComponentCount = 4` in `SourcePosition`. -/
def sampleComp4 : Container ℝ :=
  ⟨sampleLP1, sampleRP2, sampleSP4, sampleEP1, sampleIR2,
    NDArray.arr [rs 48000]⟩

/-- A `SourcePosition` variable of shape `(M, C) = (2, 6)` — component count
a multiple of 3 other than 3. -/
def sampleSP6 : NDArray ℝ :=
  NDArray.arr [NDArray.arr [rs 10, rs 20, rs 1, rs 0, rs 0, rs 0],
    NDArray.arr [rs 30, rs 40, rs 2, rs 0, rs 0, rs 0]]

/-- A `Data.IR` variable of the notebook's documented shape
`(M, R, N) = (710, 2, 512)`, all samples zero. -/
def bigIR : NDArray ℝ :=
  NDArray.arr (List.replicate 710 (NDArray.arr (List.replicate 2
    (NDArray.arr (List.replicate 512 (NDArray.scalar 0))))))

/-- A small concrete `ArraySignal` used to exercise the persistence
round trip. -/
def sampleSignal : ArraySignal ℝ :=
  ⟨⟨NDArray.arr [NDArray.arr [rs 1, rs 2], NDArray.arr [rs 3, rs 4]], rs 48000⟩,
    ⟨NDArray.arr [rs 0, rs 1], NDArray.arr [rs 2, rs 3],
      NDArray.arr [rs 1, rs 1]⟩⟩

end SampleData

section ShapeLemmas

variable {α β : Type u}

theorem hasShapeAll_iff {ds : List ℕ} {xs : List (NDArray α)} :
    hasShapeAll ds xs = true ↔ ∀ x ∈ xs, hasShapeB ds x = true := by
  induction xs with
  | nil => simp [hasShapeAll]
  | cons x xs ih => simp [hasShapeAll, Bool.and_eq_true, ih]

theorem hasShapeB_arr {d : ℕ} {ds : List ℕ} {xs : List (NDArray α)} :
    hasShapeB (d :: ds) (NDArray.arr xs) = true ↔
      xs.length = d ∧ ∀ x ∈ xs, hasShapeB ds x = true := by
  simp [hasShapeB, Bool.and_eq_true, hasShapeAll_iff]

theorem hasShapeB_nil_iff {a : NDArray α} :
    hasShapeB [] a = true ↔ ∃ x, a = NDArray.scalar x := by
  cases a <;> simp [hasShapeB]

theorem squeezeList_eq_map (xs : List (NDArray α)) :
    squeezeList xs = xs.map squeeze := by
  induction xs with
  | nil => simp [squeezeList]
  | cons x xs ih => simp [squeezeList, ih]

theorem squeeze_arr_of_ne_one {xs : List (NDArray α)} (h : xs.length ≠ 1) :
    squeeze (NDArray.arr xs) = NDArray.arr (xs.map squeeze) := by
  match xs with
  | [] => simp [squeeze, squeezeList]
  | [a] => simp at h
  | a :: b :: l => simp [squeeze, squeezeList_eq_map]

theorem hasShapeB_squeeze :
    ∀ (ds : List ℕ) (a : NDArray α), hasShapeB ds a = true →
      hasShapeB (ds.filter (fun d => d != 1)) (squeeze a) = true := by
  intro ds
  induction ds with
  | nil =>
    intro a h
    obtain ⟨x, rfl⟩ := hasShapeB_nil_iff.mp h
    simpa [squeeze] using h
  | cons d ds ih =>
    intro a h
    cases a with
    | scalar x => simp [hasShapeB] at h
    | arr xs =>
      obtain ⟨hlen, hall⟩ := hasShapeB_arr.mp h
      by_cases hd : d = 1
      · subst hd
        obtain ⟨a', rfl⟩ := List.length_eq_one.mp hlen
        have h1 : squeeze (NDArray.arr [a']) = squeeze a' := by simp [squeeze]
        rw [h1]
        simpa [List.filter_cons] using ih a' (hall a' (by simp))
      · have hxs : xs.length ≠ 1 := by rw [hlen]; exact hd
        rw [squeeze_arr_of_ne_one hxs]
        have hfil : (d :: ds).filter (fun d => d != 1) =
            d :: ds.filter (fun d => d != 1) := by
          simp [List.filter_cons, hd]
        rw [hfil]
        refine hasShapeB_arr.mpr ⟨by simp [hlen], ?_⟩
        intro y hy
        rw [List.mem_map] at hy
        obtain ⟨x, hx, rfl⟩ := hy
        exact ih x (hall x hx)

theorem hasShapeB_replicate {ds : List ℕ} {x : NDArray α}
    (h : hasShapeB ds x = true) (n : ℕ) :
    hasShapeB (n :: ds) (NDArray.arr (List.replicate n x)) = true := by
  refine hasShapeB_arr.mpr ⟨List.length_replicate n x, ?_⟩
  intro y hy
  rw [List.eq_of_mem_replicate hy]
  exact h

end ShapeLemmas

section ExtractLemmas

variable {α β : Type u}

theorem sliceCols_ok {R r : ℕ} {ds : List ℕ} (hr : r < R) :
    ∀ {ms : List (NDArray α)}, hasShapeAll (R :: ds) ms = true →
      ∃ vs, sliceCols r ms = Except.ok vs ∧ vs.length = ms.length ∧
        hasShapeAll ds vs = true := by
  intro ms
  induction ms with
  | nil => intro _; exact ⟨[], rfl, rfl, rfl⟩
  | cons m ms ih =>
    intro h
    rw [show hasShapeAll (R :: ds) (m :: ms) =
        (hasShapeB (R :: ds) m && hasShapeAll (R :: ds) ms) from rfl,
      Bool.and_eq_true] at h
    obtain ⟨hm, hms⟩ := h
    cases m with
    | scalar x => simp [hasShapeB] at hm
    | arr rs =>
      obtain ⟨hlen, hall⟩ := hasShapeB_arr.mp hm
      have hrlt : r < rs.length := by rw [hlen]; exact hr
      have hidx : rs[r]? = some rs[r] := List.getElem?_eq_getElem hrlt
      obtain ⟨vs, hvs, hlenvs, hallvs⟩ := ih hms
      refine ⟨rs[r] :: vs, ?_, by simp [hlenvs], ?_⟩
      · simp [sliceCols, hidx, hvs, Except.map]
      · rw [show hasShapeAll ds (rs[r] :: vs) =
            (hasShapeB ds rs[r] && hasShapeAll ds vs) from rfl,
          Bool.and_eq_true]
        exact ⟨hall _ (List.getElem_mem hrlt), hallvs⟩

theorem extractReceiverMatrix_ok {M R N r : ℕ} {ir : NDArray α}
    (h : hasShapeB [M, R, N] ir = true) (hr : r < R) :
    ∃ m, extractReceiverMatrix ir r = Except.ok m ∧
      hasShapeB (([M, N] : List ℕ).filter (fun d => d != 1)) m = true := by
  cases ir with
  | scalar x => simp [hasShapeB] at h
  | arr ms =>
    obtain ⟨hlen, hall⟩ := hasShapeB_arr.mp h
    obtain ⟨vs, hvs, hlenvs, hallvs⟩ :=
      @sliceCols_ok α R r [N] hr ms (hasShapeAll_iff.mpr hall)
    have hsliced : hasShapeB [M, N] (NDArray.arr vs) = true :=
      hasShapeB_arr.mpr ⟨by rw [hlenvs, hlen], hasShapeAll_iff.mp hallvs⟩
    refine ⟨squeeze (NDArray.arr vs), ?_, ?_⟩
    · simp [extractReceiverMatrix, sliceAxis1, hvs, Except.map]
    · exact hasShapeB_squeeze _ _ hsliced

theorem takeCols_ok {C lo len : ℕ} (hle : lo + len ≤ C) :
    ∀ {ms : List (NDArray α)}, hasShapeAll [C] ms = true →
      ∃ vs, takeCols lo len ms = Except.ok vs ∧ vs.length = ms.length ∧
        hasShapeAll [len] vs = true := by
  intro ms
  induction ms with
  | nil => intro _; exact ⟨[], rfl, rfl, rfl⟩
  | cons m ms ih =>
    intro h
    rw [show hasShapeAll [C] (m :: ms) =
        (hasShapeB [C] m && hasShapeAll [C] ms) from rfl,
      Bool.and_eq_true] at h
    obtain ⟨hm, hms⟩ := h
    cases m with
    | scalar x => simp [hasShapeB] at hm
    | arr cs =>
      obtain ⟨hlen, hall⟩ := hasShapeB_arr.mp hm
      obtain ⟨vs, hvs, hlenvs, hallvs⟩ := ih hms
      refine ⟨NDArray.arr ((cs.drop lo).take len) :: vs, ?_, by simp [hlenvs], ?_⟩
      · simp [takeCols, hvs, Except.map]
      · rw [show hasShapeAll [len] (NDArray.arr ((cs.drop lo).take len) :: vs) =
            (hasShapeB [len] (NDArray.arr ((cs.drop lo).take len)) &&
              hasShapeAll [len] vs) from rfl,
          Bool.and_eq_true]
        refine ⟨hasShapeB_arr.mpr ⟨?_, ?_⟩, hallvs⟩
        · rw [List.length_take, List.length_drop, hlen]
          omega
        · intro x hx
          exact hall x (List.drop_subset lo cs (List.take_subset _ _ hx))

theorem hsplit3_ok {M C : ℕ} {sp : NDArray α} (h : hasShapeB [M, C] sp = true)
    (hM : 1 ≤ M) (h3 : C % 3 = 0) :
    ∃ p0 p1 p2, hsplit3 sp = Except.ok (p0, p1, p2) ∧
      hasShapeB [M, C / 3] p0 = true ∧ hasShapeB [M, C / 3] p1 = true ∧
      hasShapeB [M, C / 3] p2 = true := by
  cases sp with
  | scalar x => simp [hasShapeB] at h
  | arr ms =>
    obtain ⟨hlen, hall⟩ := hasShapeB_arr.mp h
    have hpos : 0 < ms.length := by omega
    obtain ⟨m0, rest, rfl⟩ := List.exists_cons_of_ne_nil (List.ne_nil_of_length_pos hpos)
    have hm0 := hall m0 (by simp)
    cases m0 with
    | scalar x => simp [hasShapeB] at hm0
    | arr cs =>
      obtain ⟨hcs, _⟩ := hasShapeB_arr.mp hm0
      have hkC : C / 3 * 3 = C := Nat.div_mul_cancel (Nat.dvd_of_mod_eq_zero h3)
      have hb0 : 0 + C / 3 ≤ C := by omega
      have hb1 : C / 3 + C / 3 ≤ C := by omega
      have hb2 : 2 * (C / 3) + C / 3 ≤ C := by omega
      obtain ⟨v0, hv0, hl0, ha0⟩ := takeCols_ok hb0 (hasShapeAll_iff.mpr hall)
      obtain ⟨v1, hv1, hl1, ha1⟩ := takeCols_ok hb1 (hasShapeAll_iff.mpr hall)
      obtain ⟨v2, hv2, hl2, ha2⟩ := takeCols_ok hb2 (hasShapeAll_iff.mpr hall)
      refine ⟨NDArray.arr v0, NDArray.arr v1, NDArray.arr v2, ?_, ?_, ?_, ?_⟩
      · simp [hsplit3, hcs, h3, hv0, hv1, hv2]
      · exact hasShapeB_arr.mpr ⟨by rw [hl0, hlen], hasShapeAll_iff.mp ha0⟩
      · exact hasShapeB_arr.mpr ⟨by rw [hl1, hlen], hasShapeAll_iff.mp ha1⟩
      · exact hasShapeB_arr.mpr ⟨by rw [hl2, hlen], hasShapeAll_iff.mp ha2⟩

theorem hsplit3_err {M C : ℕ} {sp : NDArray α} (h : hasShapeB [M, C] sp = true)
    (hM : 1 ≤ M) (h3 : C % 3 ≠ 0) :
    hsplit3 sp = Except.error PyErr.valueError := by
  cases sp with
  | scalar x => simp [hasShapeB] at h
  | arr ms =>
    obtain ⟨hlen, hall⟩ := hasShapeB_arr.mp h
    have hpos : 0 < ms.length := by omega
    obtain ⟨m0, rest, rfl⟩ := List.exists_cons_of_ne_nil (List.ne_nil_of_length_pos hpos)
    have hm0 := hall m0 (by simp)
    cases m0 with
    | scalar x => simp [hasShapeB] at hm0
    | arr cs =>
      obtain ⟨hcs, _⟩ := hasShapeB_arr.mp hm0
      simp [hsplit3, hcs, h3]

end ExtractLemmas

section SplitLemmas

variable {α β : Type u}

theorem hasShapeB_false_of_deeper {M k : ℕ} (hM : 1 ≤ M) {x : NDArray α}
    (h2 : hasShapeB [M, k] x = true) : hasShapeB [M] x = false := by
  cases x with
  | scalar y => simp [hasShapeB] at h2
  | arr xs =>
    obtain ⟨hlen, hall⟩ := hasShapeB_arr.mp h2
    have hpos : 0 < xs.length := by omega
    obtain ⟨y, rest, rfl⟩ :=
      List.exists_cons_of_ne_nil (List.ne_nil_of_length_pos hpos)
    have hy := hall y (by simp)
    rw [Bool.eq_false_iff]
    intro ht
    obtain ⟨_, hall1⟩ := hasShapeB_arr.mp ht
    obtain ⟨v, rfl⟩ := hasShapeB_nil_iff.mp (hall1 y (by simp))
    simp [hasShapeB] at hy

theorem hasShapeB_false_of_len {a b : ℕ} (hab : a ≠ b) {x : NDArray α}
    (h : hasShapeB [a] x = true) : hasShapeB [b] x = false := by
  cases x with
  | scalar y => simp [hasShapeB] at h
  | arr xs =>
    obtain ⟨hlen, _⟩ := hasShapeB_arr.mp h
    rw [Bool.eq_false_iff]
    intro ht
    obtain ⟨hlen2, _⟩ := hasShapeB_arr.mp ht
    omega

theorem splitPositions_ok {M C : ℕ} {sp : NDArray α}
    (h : hasShapeB [M, C] sp = true) (hM : 1 ≤ M) (h3 : C % 3 = 0) :
    ∃ az el r, splitPositions sp = Except.ok (az, el, r) ∧
      hasShapeB (([M, C / 3] : List ℕ).filter (fun d => d != 1)) az = true ∧
      hasShapeB (([M, C / 3] : List ℕ).filter (fun d => d != 1)) el = true ∧
      hasShapeB (([M, C / 3] : List ℕ).filter (fun d => d != 1)) r = true := by
  obtain ⟨p0, p1, p2, hsp, h0, h1, h2⟩ := hsplit3_ok h hM h3
  have hsq : squeeze (NDArray.arr [p0, p1, p2]) =
      NDArray.arr [squeeze p0, squeeze p1, squeeze p2] := by
    rw [squeeze_arr_of_ne_one (by simp)]; simp
  refine ⟨squeeze p0, squeeze p1, squeeze p2, ?_, ?_, ?_, ?_⟩
  · simp [splitPositions, hsp, hsq, unpack3]
  · exact hasShapeB_squeeze _ _ h0
  · exact hasShapeB_squeeze _ _ h1
  · exact hasShapeB_squeeze _ _ h2

theorem hasShapeB_M_false_of_squeezed {M k : ℕ} (hM : 1 ≤ M) (hk : k ≠ 1)
    {x : NDArray α}
    (h : hasShapeB (([M, k] : List ℕ).filter (fun d => d != 1)) x = true) :
    hasShapeB [M] x = false := by
  by_cases hM1 : M = 1
  · subst hM1
    have hfil : (([1, k] : List ℕ).filter (fun d => d != 1)) = [k] := by
      simp [List.filter_cons, hk]
    rw [hfil] at h
    exact hasShapeB_false_of_len (fun hkM => hk (by omega)) h
  · have hfil : (([M, k] : List ℕ).filter (fun d => d != 1)) = [M, k] := by
      simp [List.filter_cons, hM1, hk]
    rw [hfil] at h
    exact hasShapeB_false_of_deeper hM h

end SplitLemmas

section RoundTripLemmas

variable {α β : Type u}

theorem unflatten_flatten :
    ∀ (ds : List ℕ) (a : NDArray α), hasShapeB ds a = true →
      (flatten a).length = prodShape ds ∧ unflatten ds (flatten a) = some a := by
  intro ds
  induction ds with
  | nil =>
    intro a h
    obtain ⟨x, rfl⟩ := hasShapeB_nil_iff.mp h
    constructor <;> simp [flatten, prodShape, unflatten]
  | cons d ds ih =>
    intro a h
    cases a with
    | scalar x => simp [hasShapeB] at h
    | arr xs =>
      obtain ⟨hlen, hall⟩ := hasShapeB_arr.mp h
      have aux : ∀ ys : List (NDArray α), (∀ y ∈ ys, hasShapeB ds y = true) →
          (flattenList ys).length = ys.length * prodShape ds ∧
          unflattenMany ys.length ds (flattenList ys) = some ys := by
        intro ys
        induction ys with
        | nil => intro _; constructor <;> simp [flattenList, unflattenMany]
        | cons y ys ihy =>
          intro hy
          obtain ⟨hl1, hu1⟩ := ih y (hy y (by simp))
          obtain ⟨hl2, hu2⟩ := ihy (fun z hz => hy z (by simp [hz]))
          constructor
          · rw [show flattenList (y :: ys) = flatten y ++ flattenList ys from rfl,
              List.length_append, hl1, hl2, List.length_cons]
            ring
          · rw [show flattenList (y :: ys) = flatten y ++ flattenList ys from rfl,
              show (y :: ys).length = ys.length + 1 from rfl]
            rw [show unflattenMany (ys.length + 1) ds (flatten y ++ flattenList ys) =
                (match unflatten ds ((flatten y ++ flattenList ys).take (prodShape ds)),
                    unflattenMany ys.length ds
                      ((flatten y ++ flattenList ys).drop (prodShape ds)) with
                  | some a, some as => some (a :: as)
                  | _, _ => none) from by rw [unflattenMany]]
            rw [List.take_left' hl1, List.drop_left' hl1, hu1, hu2]
      constructor
      · rw [show flatten (NDArray.arr xs) = flattenList xs from rfl,
          show prodShape (d :: ds) = d * prodShape ds from rfl, ← hlen]
        exact (aux xs hall).1
      · rw [show flatten (NDArray.arr xs) = flattenList xs from rfl]
        rw [show unflatten (d :: ds) (flattenList xs) =
            Option.map NDArray.arr (unflattenMany d ds (flattenList xs)) from by
          rw [unflatten]]
        rw [← hlen, (aux xs hall).2, Option.map_some']

theorem loadND_saveND {a : NDArray α} (h : isRect a = true) :
    loadND (saveND a) = some a :=
  (unflatten_flatten (shapeOf a) a h).2

end RoundTripLemmas

section PipelineLemmas

variable {α : Type u}

theorem extractAll_parts {c : Container α} {hl hr : NDArray α}
    {aer : NDArray α × NDArray α × NDArray α} {fs : NDArray α}
    (h : extractAll c = Except.ok (hl, hr, aer, fs)) :
    extractReceiverMatrix c.dataIR 0 = Except.ok hl ∧
    extractReceiverMatrix c.dataIR 1 = Except.ok hr ∧
    splitPositions c.sourcePosition = Except.ok aer ∧
    getIdx0 c.samplingRate = Except.ok fs := by
  unfold extractAll at h
  cases h0 : extractReceiverMatrix c.dataIR 0 with
  | error e => rw [h0] at h; simp at h
  | ok v0 =>
    rw [h0] at h
    cases h1 : extractReceiverMatrix c.dataIR 1 with
    | error e => rw [h1] at h; simp at h
    | ok v1 =>
      rw [h1] at h
      cases h2 : splitPositions c.sourcePosition with
      | error e => rw [h2] at h; simp at h
      | ok v2 =>
        rw [h2] at h
        cases h3 : getIdx0 c.samplingRate with
        | error e => rw [h3] at h; simp at h
        | ok v3 =>
          rw [h3] at h
          simp only [Except.ok.injEq] at h
          obtain ⟨rfl, rfl, rfl, rfl⟩ := h
          exact ⟨rfl, rfl, rfl, rfl⟩

variable [Field α]

theorem runPipeline_trace (piv : α) (base : String) (c : Container α) :
    (∃ e, extractAll c = Except.error e ∧
      runPipeline piv base c = ⟨Except.error e, false, 0⟩) ∨
    (∃ hl hr az el r fs, extractAll c = Except.ok (hl, hr, (az, el, r), fs) ∧
      runPipeline piv base c =
        ⟨Except.ok
          [(base ++ "_L", ⟨⟨hl, fs⟩, ⟨scalarMap (deg2rad piv) az,
              scalarMap (elevationToColatitude piv) el, r⟩⟩),
            (base ++ "_R", ⟨⟨hr, fs⟩, ⟨scalarMap (deg2rad piv) az,
              scalarMap (elevationToColatitude piv) el, r⟩⟩)],
          true, 2⟩) := by
  cases h : extractAll c with
  | error e => exact Or.inl ⟨e, rfl, by simp [runPipeline, h]⟩
  | ok t =>
    obtain ⟨hl, hr, ⟨az, el, r⟩, fs⟩ := t
    exact Or.inr ⟨hl, hr, az, el, r, fs, rfl,
      by simp [runPipeline, h, mkSphericalGridCounted]⟩

end PipelineLemmas

section Claims

/-- C1: For every measurement `i` the Coordinate Converter produces
`azRad[i] = azDeg[i] * π / 180` and `colatRad[i] = π/2 - elDeg[i] * π / 180`
and returns the radius sequence unchanged; in particular for
`(azDeg = 90, elDeg = 0, rMeters = 1.5)` it returns
`(π/2, π/2, 1.5)` exactly. -/
theorem spec_C1 (az el r : List ℝ) (i : ℕ) :
    ((convertSourcePositions Real.pi az el r).1)[i]? =
      (az[i]?).map (fun d => d * (Real.pi / 180)) ∧
    ((convertSourcePositions Real.pi az el r).2.1)[i]? =
      (el[i]?).map (fun d => Real.pi / 2 - d * (Real.pi / 180)) ∧
    (convertSourcePositions Real.pi az el r).2.2 = r ∧
    convertSourcePositions Real.pi [90] [0] [1.5] =
      ([Real.pi / 2], [Real.pi / 2], [1.5]) := by
  refine ⟨?_, ?_, rfl, ?_⟩
  · rw [show (convertSourcePositions Real.pi az el r).1 =
        az.map (deg2rad Real.pi) from rfl, List.getElem?_map]
    cases az[i]? with
    | none => rfl
    | some d => rw [Option.map_some', Option.map_some']; rw [deg2rad]; ring_nf
  · rw [show (convertSourcePositions Real.pi az el r).2.1 =
        el.map (elevationToColatitude Real.pi) from rfl, List.getElem?_map]
    cases el[i]? with
    | none => rfl
    | some d =>
      rw [Option.map_some', Option.map_some']
      rw [elevationToColatitude]; ring_nf
  · rw [convertSourcePositions]
    refine Prod.ext ?_ (Prod.ext ?_ rfl)
    · rw [show ([(90 : ℝ)].map (deg2rad Real.pi)) = [deg2rad Real.pi 90] from rfl]
      rw [deg2rad]; norm_num; ring
    · rw [show ([(0 : ℝ)].map (elevationToColatitude Real.pi)) =
        [elevationToColatitude Real.pi 0] from rfl]
      rw [elevationToColatitude]; norm_num

/-- C1 witness: the conversion theorem applied at the concrete input
`azDeg = [90], elDeg = [0], rMeters = [1.5]`, measurement `0`. -/
theorem spec_C1_witness :
    ((convertSourcePositions Real.pi [90] [0] [1.5]).1)[0]? =
      (([(90 : ℝ)])[0]?).map (fun d => d * (Real.pi / 180)) ∧
    ((convertSourcePositions Real.pi [90] [0] [1.5]).2.1)[0]? =
      (([(0 : ℝ)])[0]?).map (fun d => Real.pi / 2 - d * (Real.pi / 180)) ∧
    (convertSourcePositions Real.pi [90] [0] [1.5]).2.2 = [1.5] ∧
    convertSourcePositions Real.pi [90] [0] [1.5] =
      ([Real.pi / 2], [Real.pi / 2], [1.5]) :=
  spec_C1 [90] [0] [1.5] 0

/-- C2 counterexample: `sampleListener2` has `ListenerCount = 2` (its
`ListenerPosition` has shape `(2, 3)`), yet the pipeline runs to successful
completion — it is not rejected with a SchemaError, and no validation exists
before extraction. -/
theorem spec_C2_cex :
    hasShapeB [2, 3] sampleListener2.listenerPosition = true ∧
    (runPipeline Real.pi "mit_kemar_large_pinna" sampleListener2).result.isOk
      = true :=
  ⟨rfl, rfl⟩

/-- C2 (amended): the notebook pipeline performs no dimension validation and
raises no SchemaError: a container with `ListenerCount = 2` is processed
successfully, and a container with `ReceiverCount = 1` raises an IndexError
while extracting receiver 1 — after receiver 0 has already been extracted —
rather than failing before any extraction. -/
theorem spec_C2_amended :
    (runPipeline Real.pi "mit_kemar_large_pinna" sampleListener2).result.isOk
      = true ∧
    (runPipeline Real.pi "mit_kemar_large_pinna" sampleReceiver1).result =
      Except.error PyErr.indexError ∧
    (extractReceiverMatrix sampleReceiver1.dataIR 0).isOk = true :=
  ⟨rfl, rfl, rfl⟩

/-- C3 counterexample: for `Data.IR` of shape `(M, R, N) = (1, 2, 2)` — which
satisfies the validator invariants `M ≥ 1`, `N ≥ 1`, `R ≥ 2` — extraction of
receiver 0 yields a one-dimensional array of shape `(2)`, not a
two-dimensional `(1, 2)` matrix: `np.squeeze` also drops the measurement axis
when `M = 1`. -/
theorem spec_C3_cex :
    hasShapeB [1, 2, 2] sampleIRM1 = true ∧
    Except.map (hasShapeB [1, 2]) (extractReceiverMatrix sampleIRM1 0) =
      Except.ok false ∧
    Except.map (hasShapeB [2]) (extractReceiverMatrix sampleIRM1 0) =
      Except.ok true :=
  ⟨rfl, rfl, rfl⟩

/-- C3 (amended): for every `Data.IR` variable of shape `(M, R, N)` with
`r < R`, and additionally `M ≠ 1` and `N ≠ 1`, `extractReceiverMatrix`
succeeds with a two-dimensional matrix of shape exactly `(M, N)` (so in
particular both receivers of a `(710, 2, 512)` variable give `(710, 512)`);
when `M = 1` or `N = 1` the squeeze also removes that axis. -/
theorem spec_C3_amended (ir : NDArray ℝ) (M R N r : ℕ)
    (h : hasShapeB [M, R, N] ir = true) (hr : r < R) (hM : M ≠ 1) (hN : N ≠ 1) :
    ∃ m, extractReceiverMatrix ir r = Except.ok m ∧
      hasShapeB [M, N] m = true := by
  obtain ⟨m, hm, hs⟩ := extractReceiverMatrix_ok h hr
  refine ⟨m, hm, ?_⟩
  have hf : (([M, N] : List ℕ).filter (fun d => d != 1)) = [M, N] := by
    simp [List.filter_cons, hM, hN]
  rwa [hf] at hs

/-- C3 witness: the amended theorem applied to the `(710, 2, 512)` variable of
the notebook's own example file, receiver 0. -/
theorem spec_C3_witness :
    ∃ m, extractReceiverMatrix bigIR 0 = Except.ok m ∧
      hasShapeB [710, 512] m = true :=
  spec_C3_amended bigIR 710 2 512 0
    (by
      rw [bigIR]
      refine hasShapeB_replicate (hasShapeB_replicate
        (hasShapeB_replicate ?_ 512) 2) 710
      rfl)
    (by decide) (by decide) (by decide)

/-- C4 counterexample: for a container whose `SourcePosition` rows have 4
components, `np.hsplit(..., 3)` raises a ValueError during cell 6 and the run
aborts with the container handle still open — `sofa_file.close()` in cell 7 is
never reached, so the handle is not released on this exit path. -/
theorem spec_C4_cex :
    (runPipeline Real.pi "mit_kemar_large_pinna" sampleComp4).result =
      Except.error PyErr.valueError ∧
    (runPipeline Real.pi "mit_kemar_large_pinna" sampleComp4).closed = false :=
  ⟨rfl, rfl⟩

/-- C4 (amended): the container handle is closed exactly on the runs whose
extraction succeeds; when any extraction step raises, the error propagates
with the handle still open (the notebook has no try/finally around cell 6). -/
theorem spec_C4_amended (piv : ℝ) (base : String) (c : Container ℝ) :
    (runPipeline piv base c).closed = (runPipeline piv base c).result.isOk := by
  rcases runPipeline_trace piv base c with ⟨e, _, ht⟩ |
    ⟨hl, hr, az, el, r, fs, _, ht⟩ <;> rw [ht] <;> rfl

/-- C4 witness: the amended close/success equivalence at a concrete
well-formed container. -/
theorem spec_C4_witness :
    (runPipeline Real.pi "mit_kemar_large_pinna" sampleGood).closed =
      (runPipeline Real.pi "mit_kemar_large_pinna" sampleGood).result.isOk :=
  spec_C4_amended Real.pi "mit_kemar_large_pinna" sampleGood

/-- C5 counterexample: `sampleReceiver3` is a valid container with `R = 3`
receivers (its `Data.IR` has shape `(2, 3, 2)`), yet the pipeline writes
exactly 2 artifacts, not `R = 3`. -/
theorem spec_C5_cex :
    hasShapeB [2, 3, 2] sampleReceiver3.dataIR = true ∧
    Except.map List.length
      (runPipeline Real.pi "mit_kemar_large_pinna" sampleReceiver3).result =
      Except.ok 2 ∧
    (2 : ℕ) ≠ 3 :=
  ⟨rfl, rfl, by decide⟩

/-- C5 (amended): every successful run produces exactly two artifacts, for
receiver indices 0 and 1 only, named `base ++ "_L"` and `base ++ "_R"`; this
equals the receiver count R only when R = 2. -/
theorem spec_C5_amended (piv : ℝ) (base : String) (c : Container ℝ)
    (h : (runPipeline piv base c).result.isOk = true) :
    Except.map List.length (runPipeline piv base c).result = Except.ok 2 ∧
    Except.map (List.map Prod.fst) (runPipeline piv base c).result =
      Except.ok [base ++ "_L", base ++ "_R"] := by
  rcases runPipeline_trace piv base c with ⟨e, _, ht⟩ |
    ⟨hl, hr, az, el, r, fs, _, ht⟩
  · rw [ht] at h; simp [Except.isOk, Except.toBool] at h
  · rw [ht]; exact ⟨rfl, rfl⟩

/-- C5 witness: the amended artifact-count theorem at a concrete well-formed
container with two receivers. -/
theorem spec_C5_witness :
    Except.map List.length
      (runPipeline Real.pi "mit_kemar_large_pinna" sampleGood).result =
      Except.ok 2 ∧
    Except.map (List.map Prod.fst)
      (runPipeline Real.pi "mit_kemar_large_pinna" sampleGood).result =
      Except.ok ["mit_kemar_large_pinna" ++ "_L", "mit_kemar_large_pinna" ++ "_R"] :=
  spec_C5_amended Real.pi "mit_kemar_large_pinna" sampleGood rfl

/-- C6 counterexample: on a successful run the notebook constructs an
`io.SphericalGrid` twice — once inside each channel's `ArraySignal`
construction in cell 9 — not exactly once per run. -/
theorem spec_C6_cex :
    (runPipeline Real.pi "mit_kemar_large_pinna" sampleGood).gridConstructions
      = 2 ∧
    (runPipeline Real.pi "mit_kemar_large_pinna" sampleGood).result.isOk
      = true :=
  ⟨rfl, rfl⟩

/-- C6 (amended): the Spherical Grid is constructed once per receiver channel
— twice per successful run, not once — but both constructions receive the same
converted azimuth/colatitude/radius arrays, so both channels' grids hold
identical values. -/
theorem spec_C6_amended (piv : ℝ) (base : String) (c : Container ℝ)
    (h : (runPipeline piv base c).result.isOk = true) :
    (runPipeline piv base c).gridConstructions = 2 ∧
    Except.map (List.map (fun p => (p.2 : ArraySignal ℝ).grid))
        (runPipeline piv base c).result =
      Except.map (fun aer =>
        [(⟨scalarMap (deg2rad piv) aer.1,
            scalarMap (elevationToColatitude piv) aer.2.1,
            aer.2.2⟩ : SphericalGrid ℝ),
          ⟨scalarMap (deg2rad piv) aer.1,
            scalarMap (elevationToColatitude piv) aer.2.1,
            aer.2.2⟩]) (splitPositions c.sourcePosition) := by
  rcases runPipeline_trace piv base c with ⟨e, hE, ht⟩ |
    ⟨hl, hr, az, el, r, fs, hE, ht⟩
  · rw [ht] at h; simp [Except.isOk, Except.toBool] at h
  · obtain ⟨_, _, hsp, _⟩ := extractAll_parts hE
    rw [ht, hsp]
    exact ⟨rfl, rfl⟩

/-- C6 witness: the amended grid theorem at a concrete well-formed
container. -/
theorem spec_C6_witness :
    (runPipeline Real.pi "mit_kemar_large_pinna" sampleGood).gridConstructions
      = 2 ∧
    Except.map (List.map (fun p => (p.2 : ArraySignal ℝ).grid))
        (runPipeline Real.pi "mit_kemar_large_pinna" sampleGood).result =
      Except.map (fun aer =>
        [(⟨scalarMap (deg2rad Real.pi) aer.1,
            scalarMap (elevationToColatitude Real.pi) aer.2.1,
            aer.2.2⟩ : SphericalGrid ℝ),
          ⟨scalarMap (deg2rad Real.pi) aer.1,
            scalarMap (elevationToColatitude Real.pi) aer.2.1,
            aer.2.2⟩]) (splitPositions sampleGood.sourcePosition) :=
  spec_C6_amended Real.pi "mit_kemar_large_pinna" sampleGood rfl

/-- C7: the Coordinate Converter applies no clamping, wraparound or
normalization: `azDeg = 360` maps to `2π` (not 0), `elDeg = -90` maps to
colatitude `π`, and in general the conversion is the plain affine formula
`az * π/180` resp. `π/2 - el * π/180` with no branching on range. -/
theorem spec_C7 :
    deg2rad Real.pi 360 = 2 * Real.pi ∧
    elevationToColatitude Real.pi (-90) = Real.pi ∧
    (∀ az : ℝ, deg2rad Real.pi az = az * (Real.pi / 180)) ∧
    (∀ el : ℝ, elevationToColatitude Real.pi el =
      Real.pi / 2 - el * (Real.pi / 180)) := by
  refine ⟨?_, ?_, fun az => ?_, fun el => ?_⟩
  · rw [deg2rad]; norm_num
  · rw [elevationToColatitude]; norm_num; ring
  · rw [deg2rad]; ring
  · rw [elevationToColatitude]; ring

/-- C8: serializing an `ArraySignal` and deserializing it again reproduces the
impulse-response matrix, the sampling rate and all three grid coordinate
sequences exactly, with no tolerance (the persistence model is lossless). -/
theorem spec_C8 (s : ArraySignal ℝ)
    (h1 : isRect s.signal.signal = true) (h2 : isRect s.signal.fs = true)
    (h3 : isRect s.grid.azimuth = true) (h4 : isRect s.grid.colatitude = true)
    (h5 : isRect s.grid.radius = true) :
    deserializeArraySignal (serializeArraySignal s) = some s := by
  obtain ⟨⟨m, fs⟩, ⟨az, colat, r⟩⟩ := s
  simp only [serializeArraySignal, deserializeArraySignal] at *
  simp [loadND_saveND h1, loadND_saveND h2, loadND_saveND h3,
    loadND_saveND h4, loadND_saveND h5]

/-- C8 witness: the round trip at a concrete `ArraySignal`. -/
theorem spec_C8_witness :
    deserializeArraySignal (serializeArraySignal sampleSignal) =
      some sampleSignal :=
  spec_C8 sampleSignal (by decide) (by decide) (by decide) (by decide)
    (by decide)

/-- C9: the source-position unpacking assumes `ComponentCount = 3`: for a
`SourcePosition` of shape `(M, C)` with `M ≥ 1`, if `C` is not divisible by 3
the split raises a ValueError; if `C` is a multiple of 3 other than 3, the
split succeeds (no `C == 3` check exists) but the unpacked
azimuth/elevation/radius components are not one-dimensional sequences of
length `M`. -/
theorem spec_C9 (sp : NDArray ℝ) (M C : ℕ) (h : hasShapeB [M, C] sp = true)
    (hM : 1 ≤ M) :
    (C % 3 ≠ 0 → hsplit3 sp = Except.error PyErr.valueError) ∧
    (C % 3 = 0 → C ≠ 3 →
      Except.map (fun aer => (hasShapeB [M] aer.1, hasShapeB [M] aer.2.1,
        hasShapeB [M] aer.2.2)) (splitPositions sp) =
      Except.ok (false, false, false)) := by
  constructor
  · intro h3; exact hsplit3_err h hM h3
  · intro h3 hC3
    obtain ⟨az, el, r, hsp, ha, he, hr⟩ := splitPositions_ok h hM h3
    have hk : C / 3 ≠ 1 := by
      intro hk1
      have hd := Nat.div_mul_cancel (Nat.dvd_of_mod_eq_zero h3)
      omega
    rw [hsp]
    simp only [Except.map]
    rw [hasShapeB_M_false_of_squeezed hM hk ha,
      hasShapeB_M_false_of_squeezed hM hk he,
      hasShapeB_M_false_of_squeezed hM hk hr]

/-- C9 witness: the splitter theorem at the concrete `(2, 6)` SourcePosition —
the split succeeds, yet none of the three components is a 1-dimensional
sequence of length 2. -/
theorem spec_C9_witness :
    Except.map (fun aer => (hasShapeB [2] aer.1, hasShapeB [2] aer.2.1,
      hasShapeB [2] aer.2.2)) (splitPositions sampleSP6) =
    Except.ok (false, false, false) :=
  (spec_C9 sampleSP6 2 6 (by decide) (by decide)).2 (by decide) (by decide)

/-- C10: conversion does not disturb the extracted source-position data: on
every successful run, both channels' grids store, for the radius, exactly the
third component produced by the source-position split (passed through
unchanged), and for azimuth/colatitude, fresh arrays computed elementwise from
the unchanged first and second components — identically in both grids. -/
theorem spec_C10 (piv : ℝ) (base : String) (c : Container ℝ)
    (h : (runPipeline piv base c).result.isOk = true) :
    Except.map (List.map (fun p => (p.2 : ArraySignal ℝ).grid.radius))
        (runPipeline piv base c).result =
      Except.map (fun aer => [aer.2.2, aer.2.2])
        (splitPositions c.sourcePosition) ∧
    Except.map (List.map (fun p => (p.2 : ArraySignal ℝ).grid.azimuth))
        (runPipeline piv base c).result =
      Except.map (fun aer => [scalarMap (deg2rad piv) aer.1,
          scalarMap (deg2rad piv) aer.1]) (splitPositions c.sourcePosition) ∧
    Except.map (List.map (fun p => (p.2 : ArraySignal ℝ).grid.colatitude))
        (runPipeline piv base c).result =
      Except.map (fun aer => [scalarMap (elevationToColatitude piv) aer.2.1,
          scalarMap (elevationToColatitude piv) aer.2.1])
        (splitPositions c.sourcePosition) := by
  rcases runPipeline_trace piv base c with ⟨e, hE, ht⟩ |
    ⟨hl, hr, az, el, r, fs, hE, ht⟩
  · rw [ht] at h; simp [Except.isOk, Except.toBool] at h
  · obtain ⟨_, _, hsp, _⟩ := extractAll_parts hE
    rw [ht, hsp]
    exact ⟨rfl, rfl, rfl⟩

/-- C10 witness: the pass-through theorem at a concrete well-formed
container. -/
theorem spec_C10_witness :
    Except.map (List.map (fun p => (p.2 : ArraySignal ℝ).grid.radius))
        (runPipeline Real.pi "mit_kemar_large_pinna" sampleGood).result =
      Except.map (fun aer => [aer.2.2, aer.2.2])
        (splitPositions sampleGood.sourcePosition) ∧
    Except.map (List.map (fun p => (p.2 : ArraySignal ℝ).grid.azimuth))
        (runPipeline Real.pi "mit_kemar_large_pinna" sampleGood).result =
      Except.map (fun aer => [scalarMap (deg2rad Real.pi) aer.1,
          scalarMap (deg2rad Real.pi) aer.1])
        (splitPositions sampleGood.sourcePosition) ∧
    Except.map (List.map (fun p => (p.2 : ArraySignal ℝ).grid.colatitude))
        (runPipeline Real.pi "mit_kemar_large_pinna" sampleGood).result =
      Except.map (fun aer => [scalarMap (elevationToColatitude Real.pi) aer.2.1,
          scalarMap (elevationToColatitude Real.pi) aer.2.1])
        (splitPositions sampleGood.sourcePosition) :=
  spec_C10 Real.pi "mit_kemar_large_pinna" sampleGood rfl

end Claims

end SofaImport
